import Mathlib

/-!
Verification of the four2six IPv4-to-IPv6 relay (`main.go`).

The development shallowly embeds the parts of the program the claims are
about:

* the IPv6 extraction logic of `updateIPv6Address` (the `ipv6RegEx`
  regular expression together with Go's leftmost-first matching of
  `regexp.FindAllString`, of which the handler uses element `[0]`);
* the pure request handlers `updateIPv6Address` and `healthCheckHandler`
  (with the network probe `checkTunnel` and the file write of
  `saveIPv6Address` abstracted as oracles);
* small interleaving machines for the concurrent parts: two concurrent
  update requests racing on the reader/writer lock and the persisted
  file, the bidirectional `forward` relay, the listener accept loop of
  `main`, and the health-check handler racing an update.
-/

namespace FourTwoSix

/-! ## Regular expressions, Go `regexp` leftmost-first semantics

Go's `regexp` package (non-POSIX mode, as used by `regexp.MustCompile`)
returns the match a backtracking engine would find first: the match
starting at the left-most possible position, and among candidates at that
position the one preferred by trying alternation branches left to right
and greedy repetitions longest first.  `matchList r s` returns the list
of possible remainders of `s` after matching `r` at the start of `s`, in
exactly that backtracking preference order; the head of the list is the
preferred match. -/

inductive Regex where
  | eps : Regex
  | cls (p : Char → Bool) : Regex
  | cat (r s : Regex) : Regex
  | alt (r s : Regex) : Regex
  | atMost (r : Regex) (k : Nat) : Regex
  | star (r : Regex) : Regex

/-- Greedy `r{0,k}` given the matcher `ml` for `r`: prefer another
iteration, fall back to stopping. -/
def matchAtMost (ml : List Char → List (List Char)) :
    Nat → List Char → List (List Char)
  | 0, s => [s]
  | k+1, s => (ml s).flatMap (fun u => matchAtMost ml k u) ++ [s]

/-- Greedy `r{0,}` given the matcher `ml` for `r`.  Only iterations that
consume at least one character are taken (backtracking engines do not
loop on empty matches), so `fuel = s.length` iterations always suffice
and the fuel never runs out. -/
def matchStar (ml : List Char → List (List Char)) :
    Nat → List Char → List (List Char)
  | 0, s => [s]
  | f+1, s =>
      ((ml s).filter (fun u => decide (u.length < s.length))).flatMap
        (fun u => matchStar ml f u) ++ [s]

/-- All ways to match `r` against a prefix of `s`, as the list of
remaining suffixes, in backtracking preference order (greedy, alternation
left-first). -/
def matchList : Regex → List Char → List (List Char)
  | .eps, s => [s]
  | .cls p, s =>
    match s with
    | [] => []
    | c :: s' => if p c then [s'] else []
  | .cat r t, s => (matchList r s).flatMap (fun u => matchList t u)
  | .alt r t, s => matchList r s ++ matchList t s
  | .atMost r k, s => matchAtMost (fun u => matchList r u) k s
  | .star r, s => matchStar (fun u => matchList r u) s.length s

/-- Single literal character. -/
def Regex.chr (c : Char) : Regex := .cls (fun d => d == c)

/-- Character range `[lo-hi]`. -/
def Regex.range (lo hi : Char) : Regex :=
  .cls (fun d => decide (lo ≤ d) && decide (d ≤ hi))

/-- Literal string. -/
def Regex.str (s : String) : Regex :=
  s.data.foldr (fun c r => .cat (.chr c) r) .eps

/-- Repetition `r{n,n}`: exactly `n` copies. -/
def Regex.pow (r : Regex) : Nat → Regex
  | 0 => .eps
  | n+1 => .cat r (Regex.pow r n)

/-- Repetition `r{lo,hi}`: `lo` mandatory copies followed by up to `hi - lo` greedy
optional ones, matching backtracking preference. -/
def Regex.repRange (r : Regex) (lo hi : Nat) : Regex :=
  .cat (r.pow lo) (.atMost r (hi - lo))

/-- Repetition `r{0,1}`. -/
def Regex.opt (r : Regex) : Regex := .atMost r 1

/-- Repetition `r{1,}`. -/
def Regex.plus (r : Regex) : Regex := .cat r (.star r)

/-! ### The `ipv6RegEx` regular expression of `updateIPv6Address`

Each definition mirrors one sub-expression of the regex literal in
`main.go`; `ipv6RegEx` is the top-level alternation with its branches in
source order. -/

/-- Class `[0-9a-fA-F]`. -/
def hexCls : Regex :=
  .cls (fun c => (decide ('0' ≤ c) && decide (c ≤ '9')) ||
                 (decide ('a' ≤ c) && decide (c ≤ 'f')) ||
                 (decide ('A' ≤ c) && decide (c ≤ 'F')))

/-- Class `[0-9]`. -/
def digitCls : Regex := Regex.range '0' '9'

/-- Class `[0-9a-zA-Z]`. -/
def alnumCls : Regex :=
  .cls (fun c => (decide ('0' ≤ c) && decide (c ≤ '9')) ||
                 (decide ('a' ≤ c) && decide (c ≤ 'z')) ||
                 (decide ('A' ≤ c) && decide (c ≤ 'Z')))

/-- Group `[0-9a-fA-F]{1,4}`. -/
def h14 : Regex := Regex.repRange hexCls 1 4

/-- Literal `:`. -/
def colon : Regex := Regex.chr ':'

/-- Group `([0-9a-fA-F]{1,4}:)`. -/
def grpColon : Regex := .cat h14 colon

/-- Group `(:[0-9a-fA-F]{1,4})`. -/
def colonGrp : Regex := .cat colon h14

/-- Octet `(25[0-5]|(2[0-4]|1{0,1}[0-9]){0,1}[0-9])` — one decimal value. -/
def octet : Regex :=
  .alt (.cat (Regex.str "25") (Regex.range '0' '5'))
       (.cat (Regex.opt (.alt (.cat (Regex.chr '2') (Regex.range '0' '4'))
                              (.cat (Regex.opt (Regex.chr '1')) digitCls)))
             digitCls)

/-- Quad `((octet)\.){3,3}(octet)` — a dotted quad. -/
def dottedQuad : Regex :=
  .cat (Regex.pow (.cat octet (Regex.chr '.')) 3) octet

/-- Group `(ffff(:0{1,4}){0,1}:)`. -/
def ffffPart : Regex :=
  .cat (Regex.str "ffff")
       (.cat (Regex.opt (.cat colon (Regex.repRange (Regex.chr '0') 1 4))) colon)

/-- The regex compiled in `updateIPv6Address` (stack-overflow IPv6 regex),
branches in source order. -/
def ipv6RegEx : Regex :=
  -- ([0-9a-fA-F]{1,4}:){7,7}[0-9a-fA-F]{1,4}
  .alt (.cat (Regex.pow grpColon 7) h14) <|
  -- ([0-9a-fA-F]{1,4}:){1,7}:
  .alt (.cat (Regex.repRange grpColon 1 7) colon) <|
  -- ([0-9a-fA-F]{1,4}:){1,6}:[0-9a-fA-F]{1,4}
  .alt (.cat (Regex.repRange grpColon 1 6) colonGrp) <|
  -- ([0-9a-fA-F]{1,4}:){1,5}(:[0-9a-fA-F]{1,4}){1,2}
  .alt (.cat (Regex.repRange grpColon 1 5) (Regex.repRange colonGrp 1 2)) <|
  -- ([0-9a-fA-F]{1,4}:){1,4}(:[0-9a-fA-F]{1,4}){1,3}
  .alt (.cat (Regex.repRange grpColon 1 4) (Regex.repRange colonGrp 1 3)) <|
  -- ([0-9a-fA-F]{1,4}:){1,3}(:[0-9a-fA-F]{1,4}){1,4}
  .alt (.cat (Regex.repRange grpColon 1 3) (Regex.repRange colonGrp 1 4)) <|
  -- ([0-9a-fA-F]{1,4}:){1,2}(:[0-9a-fA-F]{1,4}){1,5}
  .alt (.cat (Regex.repRange grpColon 1 2) (Regex.repRange colonGrp 1 5)) <|
  -- [0-9a-fA-F]{1,4}:((:[0-9a-fA-F]{1,4}){1,6})
  .alt (.cat h14 (.cat colon (Regex.repRange colonGrp 1 6))) <|
  -- :((:[0-9a-fA-F]{1,4}){1,7}|:)
  .alt (.cat colon (.alt (Regex.repRange colonGrp 1 7) colon)) <|
  -- fe80:(:[0-9a-fA-F]{0,4}){0,4}%[0-9a-zA-Z]{1,}
  .alt (.cat (Regex.str "fe80:")
             (.cat (.atMost (.cat colon (.atMost hexCls 4)) 4)
                   (.cat (Regex.chr '%') (Regex.plus alnumCls)))) <|
  -- ::(ffff(:0{1,4}){0,1}:){0,1}(dotted quad)
  .alt (.cat (Regex.str "::") (.cat (Regex.opt ffffPart) dottedQuad)) <|
  -- ([0-9a-fA-F]{1,4}:){1,4}:(dotted quad)
  (.cat (Regex.repRange grpColon 1 4) (.cat colon dottedQuad))

/-! ### Leftmost-first search (`FindAllString`'s first element) -/

/-- The preferred (backtracking-first) match of `r` at the start of `s`. -/
def firstMatchAt (r : Regex) (s : List Char) : Option (List Char) :=
  (matchList r s).head?.map (fun rem => s.take (s.length - rem.length))

/-- Leftmost-first search: the first position (in left-to-right scan
order) where `r` matches, together with the preferred match there.  This
is the first element of Go's `FindAllString` (equivalently `FindString`
with its position). -/
def findFirstPos (r : Regex) : List Char → Option (Nat × List Char)
  | [] => (firstMatchAt r []).map (fun m => (0, m))
  | c :: rest =>
    match firstMatchAt r (c :: rest) with
    | some m => some (0, m)
    | none => (findFirstPos r rest).map (fun p => (p.1 + 1, p.2))

/-- The IPv6 extraction performed by `updateIPv6Address`:
`ipv6RegEx.FindAllString(bodyString, -1)` followed by taking element `[0]`
(`none` models the empty match list / 400 path). -/
def extractIPv6 (s : String) : Option String :=
  (findFirstPos ipv6RegEx s.data).map (fun p => String.mk p.2)

/-! ## The update handler (`updateIPv6Address`)

The handler's observable outcome is the HTTP status it writes and the
in-memory `config.IPv6Address` after it returns.  The body has already
been read (`io.ReadAll`); `saveOk` abstracts whether `saveIPv6Address`
(file create + write) succeeds. -/

/-- One `POST /update` request against a store holding `addr`:
returns `(status, new in-memory address)`.  Mirrors the handler body:
token check by full-string inequality against
`fmt.Sprintf("Bearer %s", config.WebhookToken)`, then regex extraction
taking match `[0]`, then `config.IPv6Address = ipv6Address` under the
write lock, then `saveIPv6Address`. -/
def updateIPv6Address (webhookToken authHeader body : String)
    (saveOk : Bool) (addr : String) : Nat × String :=
  if authHeader ≠ "Bearer " ++ webhookToken then (401, addr)
  else
    match extractIPv6 body with
    | none => (400, addr)
    | some a => if saveOk then (200, a) else (500, a)

/-! ## The health check (`healthCheckHandler` and `checkTunnel`) -/

/-- JSON element of the health-check response. -/
structure TunnelStatus where
  ipv4Port : String
  ipv6Port : String
  ipv6Alive : Bool
deriving DecidableEq

/-- The per-mapping loop of `healthCheckHandler`: iterates over
`config.IPv4Ports` pairing index `i` with `config.IPv6Ports[i]` and
probing `checkTunnel(config.IPv6Address, ipv6Port)` (abstracted by
`probe`, the address being fixed for the whole call).  `none` models the
index panic when `IPv6Ports` is shorter than `IPv4Ports`. -/
def tunnelStatuses (probe : String → Bool) :
    List String → List String → Option (List TunnelStatus)
  | [], _ => some []
  | _ :: _, [] => none
  | p4 :: r4, p6 :: r6 =>
    (tunnelStatuses probe r4 r6).map (fun rest => ⟨p4, p6, probe p6⟩ :: rest)

/-- The whole handler: statuses plus the HTTP code (200 if `allHealthy`,
500 otherwise). -/
def healthCheckHandler (ipv4Ports ipv6Ports : List String)
    (probe : String → Bool) : Option (Nat × List TunnelStatus) :=
  (tunnelStatuses probe ipv4Ports ipv6Ports).map
    (fun sts => (if sts.all (fun st => st.ipv6Alive) then 200 else 500, sts))

/-! ## The relay (`forward`)

`forward(src, dst)` defers `src.Close()` and `dst.Close()`, spawns
`go io.Copy(src, dst)` (the background direction, reading `dst`), and
runs `io.Copy(dst, src)` (the foreground direction, reading `src`) on
its own goroutine.  We model the two goroutines and the two peers'
end-of-stream signals as an interleaving machine.  An `io.Copy` returns
when its source reaches EOF or when either of its two streams has been
closed (read/write error). -/

structure FwdState where
  /-- Foreground goroutine (the `forward` call itself):
  0 = inside `io.Copy(dst, src)`, 1 = copy returned, deferred
  `dst.Close()` pending, 2 = deferred `src.Close()` pending, 3 = done. -/
  pcFg : Nat
  /-- Background goroutine `go io.Copy(src, dst)`:
  0 = inside the copy, 1 = copy returned. -/
  pcBg : Nat
  /-- The inbound peer has sent EOF on `src`. -/
  srcEOF : Bool
  /-- The outbound peer has sent EOF on `dst`. -/
  dstEOF : Bool
  srcClosed : Bool
  dstClosed : Bool
deriving DecidableEq

inductive FwdEvent where
  | srcEOF | dstEOF | stepFg | stepBg
deriving DecidableEq

def fwdStep (e : FwdEvent) (s : FwdState) : FwdState :=
  match e with
  | .srcEOF => { s with srcEOF := true }
  | .dstEOF => { s with dstEOF := true }
  | .stepFg =>
    if s.pcFg = 0 then
      -- `io.Copy(dst, src)` returns on src EOF or on a read/write error
      -- caused by either connection being closed.
      if s.srcEOF || s.srcClosed || s.dstClosed then { s with pcFg := 1 } else s
    else if s.pcFg = 1 then { s with dstClosed := true, pcFg := 2 }
    else if s.pcFg = 2 then { s with srcClosed := true, pcFg := 3 }
    else s
  | .stepBg =>
    if s.pcBg = 0 then
      if s.dstEOF || s.dstClosed || s.srcClosed then { s with pcBg := 1 } else s
    else s

def fwdInit : FwdState := ⟨0, 0, false, false, false, false⟩

def fwdRun (es : List FwdEvent) : FwdState :=
  es.foldl (fun s e => fwdStep e s) fwdInit

/-! ## The listener loop of `main`

One goroutine per source port runs: `Accept`, then read the address
under `RLock`, then `net.Dial` (synchronously, on this same goroutine),
then `go forward(...)`, and loops.  Events model connection arrival,
the listener executing its next action, dial completion, and a spawned
relay finishing. -/

structure LstState where
  /-- Counter: 0 = blocked in `Accept`, 1 = reading the store, 2 = `net.Dial`
  in flight, 3 = about to `go forward`. -/
  pc : Nat
  /-- Inbound connections queued, not yet accepted. -/
  pending : Nat
  accepted : Nat
  /-- Number of `forward` goroutines spawned. -/
  relays : Nat
  /-- Spawned relays that have finished. -/
  relaysDone : Nat
deriving DecidableEq

inductive LstEvent where
  | arrive | step | dialOk | dialFail | relayDone
deriving DecidableEq

def lstStep (e : LstEvent) (s : LstState) : LstState :=
  match e with
  | .arrive => { s with pending := s.pending + 1 }
  | .step =>
    if s.pc = 0 then
      if s.pending = 0 then s
      else { s with pending := s.pending - 1, accepted := s.accepted + 1, pc := 1 }
    else if s.pc = 1 then { s with pc := 2 }
    else if s.pc = 2 then s   -- blocked until the dial completes
    else { s with relays := s.relays + 1, pc := 0 }
  | .dialOk => if s.pc = 2 then { s with pc := 3 } else s
  | .dialFail => if s.pc = 2 then { s with pc := 0 } else s
  | .relayDone =>
    if s.relaysDone < s.relays then { s with relaysDone := s.relaysDone + 1 } else s

def lstInit : LstState := ⟨0, 0, 0, 0, 0⟩

def lstRun (s : LstState) (es : List LstEvent) : LstState :=
  es.foldl (fun t e => lstStep e t) s

/-! ## Two concurrent update requests (`updateIPv6Address` +
`saveIPv6Address` racing on the `sync.RWMutex` and the file)

Each handler goroutine runs, in program order:
`mu.Lock`; `config.IPv6Address = x`; `mu.Unlock`; then inside
`saveIPv6Address`: `mu.RLock`; `os.Create` (truncates the file);
`file.WriteString(config.IPv6Address)` (writes the *current* in-memory
value at offset 0); `mu.RUnlock`.  Values are symbolic: `v0` the initial
address, `vA`/`vB` the two requests' extracted addresses.  A file write
of `v` over existing content `w ≠ v` may leave a mixed value (the write
is at offset 0 without truncation), modelled conservatively as
`fMixed`. -/

inductive UVal where
  | v0 | vA | vB
deriving DecidableEq

inductive UFile where
  | fInit | fEmpty | fVal (v : UVal) | fMixed
deriving DecidableEq

/-- Effect of `file.WriteString(v)` on a fresh descriptor (offset 0, no
truncation). -/
def writeAt0 (v : UVal) : UFile → UFile
  | .fEmpty => .fVal v
  | .fVal w => if w = v then .fVal v else .fMixed
  | .fInit => .fMixed
  | .fMixed => .fMixed

structure UpdState where
  /-- Program counters: 0 before `mu.Lock`; 1 holding the write lock,
  store pending; 2 store done, before `mu.Unlock`; 3 before `mu.RLock`;
  4 holding the read lock, before `os.Create`; 5 created, before
  `WriteString`; 6 written, before `mu.RUnlock`; 7 done. -/
  pcA : Nat
  pcB : Nat
  mem : UVal
  file : UFile
deriving DecidableEq

/-- Does a task at program counter `pc` hold the write lock? -/
def holdsW (pc : Nat) : Bool := pc = 1 || pc = 2

/-- Does a task at program counter `pc` hold the read lock? -/
def holdsR (pc : Nat) : Bool := pc = 4 || pc = 5 || pc = 6

/-- One step of one update goroutine (writing value `v`), given the
other goroutine's program counter `other`. -/
def updStepTask (v : UVal) (other : Nat) (pc : Nat) (mem : UVal)
    (file : UFile) : Nat × UVal × UFile :=
  if pc = 0 then
    -- `mu.Lock()` blocks while the other task holds either lock.
    if holdsW other || holdsR other then (pc, mem, file) else (1, mem, file)
  else if pc = 1 then (2, v, file)
  else if pc = 2 then (3, mem, file)
  else if pc = 3 then
    -- `mu.RLock()` blocks only while the other task holds the write lock.
    if holdsW other then (pc, mem, file) else (4, mem, file)
  else if pc = 4 then (5, mem, .fEmpty)          -- `os.Create` truncates
  else if pc = 5 then (6, mem, writeAt0 mem file) -- writes the current value
  else if pc = 6 then (7, mem, file)
  else (pc, mem, file)

/-- One interleaving step: `true` steps goroutine A (writing `vA`),
`false` steps goroutine B (writing `vB`). -/
def updStep (b : Bool) (s : UpdState) : UpdState :=
  if b then
    let r := updStepTask .vA s.pcB s.pcA s.mem s.file
    ⟨r.1, s.pcB, r.2.1, r.2.2⟩
  else
    let r := updStepTask .vB s.pcA s.pcB s.mem s.file
    ⟨s.pcA, r.1, r.2.1, r.2.2⟩

def updInit : UpdState := ⟨0, 0, .v0, .fInit⟩

def updRun (sch : List Bool) : UpdState :=
  sch.foldl (fun s b => updStep b s) updInit

/-! ## Health check racing an update (the `RLock` held across all probes)

`healthCheckHandler` takes `mu.RLock()` once, probes every mapping
(reading `config.IPv6Address` for each probe), then releases via the
deferred `mu.RUnlock()`.  A concurrent `updateIPv6Address` tries to take
`mu.Lock()`, store the new address and unlock.  `obs` records the
address value each probe reads. -/

structure HCState where
  /-- Health goroutine: 0 before `mu.RLock`; 1 holding the read lock,
  probing; 2 after `mu.RUnlock`. -/
  pcH : Nat
  /-- Update goroutine: 0 before `mu.Lock`; 1 holding the write lock,
  store pending; 2 store done, before `mu.Unlock`; 3 done. -/
  pcU : Nat
  /-- Probes still to run. -/
  remaining : Nat
  /-- The address value when the read lock was taken. -/
  snap : String
  mem : String
  /-- The address value each executed probe dialled. -/
  obs : List String
deriving DecidableEq

/-- Step: `true` steps the health goroutine, `false` the update goroutine. -/
def hcStep (newAddr : String) (b : Bool) (s : HCState) : HCState :=
  match b with
  | true =>
    if s.pcH = 0 then
      -- `mu.RLock()` blocks while the update holds the write lock.
      if s.pcU = 1 || s.pcU = 2 then s
      else { s with pcH := 1, snap := s.mem }
    else if s.pcH = 1 then
      if s.remaining = 0 then { s with pcH := 2 }   -- deferred `mu.RUnlock`
      else { s with remaining := s.remaining - 1, obs := s.obs ++ [s.mem] }
    else s
  | false =>
    if s.pcU = 0 then
      -- `mu.Lock()` blocks while the health check holds the read lock.
      if s.pcH = 1 then s else { s with pcU := 1 }
    else if s.pcU = 1 then { s with pcU := 2, mem := newAddr }
    else if s.pcU = 2 then { s with pcU := 3 }
    else s

def hcInit (n : Nat) (mem0 : String) : HCState := ⟨0, 0, n, "", mem0, []⟩

def hcRun (newAddr : String) (s : HCState) (sch : List Bool) : HCState :=
  sch.foldl (fun t b => hcStep newAddr b t) s

set_option maxHeartbeats 1600000 in
/-- All states reachable from `updInit` under `updStep` (the fixed point
of expanding by both goroutines' steps). -/
def updReach : List UpdState := [
  ⟨0, 0, .v0, .fInit⟩, ⟨7, 7, .vB, .fVal .vB⟩, ⟨7, 6, .vB, .fVal .vB⟩,
  ⟨6, 7, .vB, .fVal .vB⟩, ⟨7, 5, .vB, .fEmpty⟩, ⟨7, 5, .vB, .fVal .vB⟩,
  ⟨5, 7, .vB, .fVal .vB⟩, ⟨6, 6, .vB, .fVal .vB⟩, ⟨5, 7, .vB, .fEmpty⟩,
  ⟨7, 4, .vB, .fVal .vA⟩, ⟨7, 4, .vB, .fVal .vB⟩, ⟨6, 5, .vB, .fEmpty⟩,
  ⟨6, 5, .vB, .fVal .vB⟩, ⟨5, 6, .vB, .fVal .vB⟩, ⟨5, 6, .vB, .fEmpty⟩,
  ⟨4, 7, .vB, .fVal .vB⟩, ⟨7, 3, .vB, .fVal .vA⟩, ⟨7, 3, .vB, .fVal .vB⟩,
  ⟨6, 4, .vB, .fVal .vB⟩, ⟨5, 5, .vB, .fEmpty⟩, ⟨4, 6, .vB, .fVal .vB⟩,
  ⟨3, 7, .vB, .fVal .vB⟩, ⟨7, 2, .vB, .fVal .vA⟩, ⟨6, 3, .vB, .fVal .vB⟩,
  ⟨5, 4, .vB, .fEmpty⟩, ⟨4, 5, .vB, .fEmpty⟩, ⟨3, 6, .vB, .fVal .vB⟩,
  ⟨7, 1, .vA, .fVal .vA⟩, ⟨5, 3, .vB, .fEmpty⟩, ⟨4, 4, .vB, .fInit⟩,
  ⟨3, 5, .vB, .fEmpty⟩, ⟨7, 0, .vA, .fVal .vA⟩, ⟨4, 3, .vB, .fInit⟩,
  ⟨3, 4, .vB, .fInit⟩, ⟨6, 0, .vA, .fVal .vA⟩, ⟨3, 3, .vB, .fInit⟩,
  ⟨5, 0, .vA, .fEmpty⟩, ⟨3, 2, .vB, .fInit⟩, ⟨4, 0, .vA, .fInit⟩,
  ⟨3, 1, .vA, .fInit⟩, ⟨3, 0, .vA, .fInit⟩, ⟨2, 0, .vA, .fInit⟩,
  ⟨1, 0, .v0, .fInit⟩, ⟨0, 1, .v0, .fInit⟩, ⟨0, 2, .vB, .fInit⟩,
  ⟨0, 3, .vB, .fInit⟩, ⟨7, 6, .vA, .fVal .vA⟩, ⟨7, 5, .vA, .fEmpty⟩,
  ⟨7, 5, .vA, .fVal .vA⟩, ⟨5, 7, .vA, .fVal .vA⟩, ⟨6, 6, .vA, .fVal .vA⟩,
  ⟨7, 4, .vA, .fVal .vA⟩, ⟨6, 5, .vA, .fEmpty⟩, ⟨6, 5, .vA, .fVal .vA⟩,
  ⟨5, 6, .vA, .fVal .vA⟩, ⟨5, 6, .vA, .fEmpty⟩, ⟨4, 7, .vA, .fVal .vA⟩,
  ⟨7, 3, .vA, .fVal .vA⟩, ⟨6, 4, .vA, .fVal .vA⟩, ⟨5, 5, .vA, .fEmpty⟩,
  ⟨4, 6, .vA, .fVal .vA⟩, ⟨3, 7, .vA, .fVal .vA⟩, ⟨6, 3, .vA, .fVal .vA⟩,
  ⟨5, 4, .vA, .fEmpty⟩, ⟨4, 5, .vA, .fEmpty⟩, ⟨3, 6, .vA, .fVal .vA⟩,
  ⟨5, 3, .vA, .fEmpty⟩, ⟨4, 4, .vA, .fInit⟩, ⟨3, 5, .vA, .fEmpty⟩,
  ⟨4, 3, .vA, .fInit⟩, ⟨3, 4, .vA, .fInit⟩, ⟨3, 3, .vA, .fInit⟩,
  ⟨2, 3, .vA, .fInit⟩, ⟨1, 3, .vB, .fInit⟩, ⟨0, 4, .vB, .fInit⟩,
  ⟨0, 5, .vB, .fEmpty⟩, ⟨0, 6, .vB, .fVal .vB⟩, ⟨7, 7, .vA, .fVal .vA⟩,
  ⟨6, 7, .vA, .fVal .vA⟩, ⟨5, 7, .vA, .fEmpty⟩, ⟨4, 7, .vA, .fVal .vB⟩,
  ⟨3, 7, .vA, .fVal .vB⟩, ⟨2, 7, .vA, .fVal .vB⟩, ⟨1, 7, .vB, .fVal .vB⟩,
  ⟨0, 7, .vB, .fVal .vB⟩]

/-- Invariant of the `forward` machine: streams are closed only by the
deferred closes running after the foreground `io.Copy(dst, src)`
returns. -/
def FwdInv (s : FwdState) : Prop :=
  (s.srcClosed = true ↔ s.pcFg = 3) ∧
  (s.dstClosed = true ↔ 2 ≤ s.pcFg) ∧
  s.pcFg ≤ 3 ∧ s.pcBg ≤ 1

/-- Invariant of the health-check/update machine with `n` configured
mappings: while the read lock is held every executed probe has read the
snapshot value and the update's write critical section is not active. -/
def HCInv (n : Nat) (s : HCState) : Prop :=
  s.remaining ≤ n ∧ s.pcU ≤ 3 ∧
  (s.pcH = 0 → s.obs = [] ∧ s.remaining = n) ∧
  (s.pcH = 1 → s.snap = s.mem ∧ (s.pcU = 0 ∨ s.pcU = 3)) ∧
  ((s.pcH = 1 ∨ s.pcH = 2) → s.obs = List.replicate (n - s.remaining) s.snap) ∧
  (s.pcH = 2 → s.remaining = 0)

/-! ## Theorems -/

theorem updReach_closed :
    ∀ s ∈ updReach, updStep true s ∈ updReach ∧ updStep false s ∈ updReach := by
  decide

theorem updInit_mem : updInit ∈ updReach := by decide

theorem updRun_mem (sch : List Bool) : updRun sch ∈ updReach := by
  suffices h : ∀ s, s ∈ updReach →
      sch.foldl (fun t b => updStep b t) s ∈ updReach by
    exact h updInit updInit_mem
  induction sch with
  | nil => intro s hs; exact hs
  | cons b rest ih =>
    intro s hs
    exact ih _ ((if hb : b then by
      simpa [hb] using (updReach_closed s hs).1
    else by simpa [hb] using (updReach_closed s hs).2))

theorem updReach_final :
    ∀ s ∈ updReach, s.pcA = 7 → s.pcB = 7 →
      s.file = .fVal .vA ∨ s.file = .fVal .vB := by
  decide

/-- C1 (counterexample to "serialized by the store's lock").
`saveIPv6Address` takes only `mu.RLock()`, which two goroutines may hold
simultaneously, so the two saves' file operations interleave: in the
schedule below, after the prefix goroutine A has executed `os.Create`
but not yet `WriteString` (`pcA = 5`), and goroutine B then executes its
`mu.RLock` and `os.Create` (`pcB` goes 3 → 4 → 5) while `pcA` stays 5;
the schedule nevertheless runs both goroutines to completion
(`pcA = pcB = 7`).  Hence the file writes of two concurrent updates are
not serialized by the lock. -/
theorem saveIPv6Address_writes_interleave :
    (updRun [true, true, true, false, false, false, true, true]).pcA = 5 ∧
    (updRun [true, true, true, false, false, false, true, true]).pcB = 3 ∧
    (updRun [true, true, true, false, false, false, true, true, false]).pcA = 5 ∧
    (updRun [true, true, true, false, false, false, true, true, false]).pcB = 4 ∧
    (updRun [true, true, true, false, false, false, true, true, false, false]).pcA = 5 ∧
    (updRun [true, true, true, false, false, false, true, true, false, false]).pcB = 5 ∧
    (updRun [true, true, true, false, false, false, true, true, false, false,
             true, false, true, false]).pcA = 7 ∧
    (updRun [true, true, true, false, false, false, true, true, false, false,
             true, false, true, false]).pcB = 7 := by
  decide

/-- C1 (amended).  The two saves are not serialized (they hold only
the shared read lock and their `os.Create`/`WriteString` calls may
interleave), but because `mu.Lock()` is excluded while either save holds
the read lock, overlapping saves write the same current in-memory value:
in every interleaving of two concurrent update calls that runs both to
completion, the persisted file ends up holding exactly one of the two
written addresses — never a mixed or partial value. -/
theorem updRun_final_file (sch : List Bool)
    (hA : (updRun sch).pcA = 7) (hB : (updRun sch).pcB = 7) :
    (updRun sch).file = .fVal .vA ∨ (updRun sch).file = .fVal .vB :=
  updReach_final _ (updRun_mem sch) hA hB

theorem updRun_final_file_witness :
    (updRun [true, true, true, false, false, false, true, true, false, false,
             true, false, true, false]).pcA = 7 ∧
    (updRun [true, true, true, false, false, false, true, true, false, false,
             true, false, true, false]).pcB = 7 ∧
    ((updRun [true, true, true, false, false, false, true, true, false, false,
              true, false, true, false]).file = .fVal .vA ∨
     (updRun [true, true, true, false, false, false, true, true, false, false,
              true, false, true, false]).file = .fVal .vB) :=
  ⟨by decide, by decide,
   updRun_final_file _ (by decide) (by decide)⟩

/-! ### Leftmost-first search lemmas -/

theorem firstMatchAt_eq_none (r : Regex) (s : List Char) :
    firstMatchAt r s = none ↔ matchList r s = [] := by
  simp [firstMatchAt]

theorem findFirstPos_leftmost (r : Regex) :
    ∀ (s : List Char) (j : Nat) (m : List Char),
      findFirstPos r s = some (j, m) →
      (∀ k, k < j → matchList r (s.drop k) = []) ∧
      firstMatchAt r (s.drop j) = some m := by
  intro s
  induction s with
  | nil =>
    intro j m h
    simp only [findFirstPos, Option.map_eq_some'] at h
    obtain ⟨m', hm', hjm⟩ := h
    obtain ⟨hj, hm⟩ := Prod.mk.injEq .. ▸ hjm
    subst hj; subst hm
    exact ⟨fun k hk => absurd hk (Nat.not_lt_zero k), hm'⟩
  | cons c rest ih =>
    intro j m h
    rw [findFirstPos] at h
    cases hfm : firstMatchAt r (c :: rest) with
    | some m0 =>
      rw [hfm] at h
      simp only [Option.some_inj, Prod.mk.injEq] at h
      obtain ⟨hj, hm⟩ := h
      subst hj; subst hm
      exact ⟨fun k hk => absurd hk (Nat.not_lt_zero k), hfm⟩
    | none =>
      rw [hfm] at h
      simp only [Option.map_eq_some'] at h
      obtain ⟨⟨j', m'⟩, hrest, hjm⟩ := h
      simp only [Prod.mk.injEq] at hjm
      obtain ⟨hj, hm⟩ := hjm
      subst hj; subst hm
      obtain ⟨hleft, hmatch⟩ := ih j' m' hrest
      refine ⟨fun k hk => ?_, by simpa using hmatch⟩
      cases k with
      | zero => exact (firstMatchAt_eq_none r (c :: rest)).mp hfm
      | succ k' => simpa using hleft k' (Nat.lt_of_succ_lt_succ hk)

theorem findFirstPos_isSome (r : Regex) :
    ∀ (s : List Char) (i : Nat), matchList r (s.drop i) ≠ [] →
      (findFirstPos r s).isSome = true := by
  intro s
  induction s with
  | nil =>
    intro i h
    simp only [List.drop_nil] at h
    rw [findFirstPos]
    cases hfm : firstMatchAt r [] with
    | some m0 => rfl
    | none => exact absurd ((firstMatchAt_eq_none r []).mp hfm) h
  | cons c rest ih =>
    intro i h
    rw [findFirstPos]
    cases hfm : firstMatchAt r (c :: rest) with
    | some m0 => rfl
    | none =>
      cases i with
      | zero =>
        exact absurd ((firstMatchAt_eq_none r (c :: rest)).mp hfm) h
      | succ i' =>
        simp only [List.drop_succ_cons] at h
        simpa [Option.isSome_map] using ih i' h

theorem findFirstPos_eq_none_iff (r : Regex) (s : List Char) :
    findFirstPos r s = none ↔ ∀ i, matchList r (s.drop i) = [] := by
  constructor
  · intro h i
    by_contra hne
    have := findFirstPos_isSome r s i hne
    rw [h] at this
    exact Bool.false_ne_true this
  · intro h
    cases hfp : findFirstPos r s with
    | none => rfl
    | some p =>
      exfalso
      have := (findFirstPos_leftmost r s p.1 p.2 (by simpa using hfp)).2
      rw [firstMatchAt, h p.1] at this
      simp at this

/-- C3 (counterexample).  The claim says a run of 9+ colon-separated
hex groups, or a token with multiple `::`, yields no match drawn from
inside the run.  In fact the regex has no boundary anchors: on the
9-group run `1:2:3:4:5:6:7:8:9` and on the multi-`::` token `1::2::3`
the extractor does return a match (drawn from inside those runs, the
whole text being a single run). -/
theorem extractIPv6_matches_inside_malformed :
    extractIPv6 "1:2:3:4:5:6:7:8:9" ≠ none ∧ extractIPv6 "1::2::3" ≠ none := by
  decide

/-- C3 (amended).  A partial/malformed run does yield matches drawn
from inside it: on a 9-group run the extractor returns the first
8 groups, and on a token containing two `::` occurrences it returns the
prefix up to and including the first `::`. -/
theorem extractIPv6_malformed_run_values :
    extractIPv6 "1:2:3:4:5:6:7:8:9" = some "1:2:3:4:5:6:7:8" ∧
    extractIPv6 "1::2::3" = some "1::" := by
  decide

/-- C4 (counterexample).  The syntactically valid IPv6 literal
`2001:db8::1` (the program's own default address) embedded in prose is
not returned exactly: the alternation branch `([0-9a-fA-F]{1,4}:){1,7}:`
precedes the branches that could consume the part after `::`, and Go's
leftmost-first semantics picks it, truncating the match to
`2001:db8::`.  The IPv4-mapped form `::ffff:192.0.2.1` is likewise
truncated to `::ffff:192`. -/
theorem extractIPv6_not_exact_literal :
    extractIPv6 "addr 2001:db8::1 end" = some "2001:db8::" ∧
    extractIPv6 "2001:db8::1" = some "2001:db8::" ∧
    extractIPv6 "::ffff:192.0.2.1" = some "::ffff:192" ∧
    ("2001:db8::" : String) ≠ "2001:db8::1" := by
  decide

/-- C4 (amended).  The extractor returns `none` exactly when no
position of the text matches `ipv6RegEx` (so text with zero IPv6-shaped
substrings yields none), and any returned string is the leftmost-first
regex match — the preferred match at the first matching position — which
need not coincide with an embedded valid literal (a `::`-compressed
literal is truncated after the `::`). -/
theorem extractIPv6_leftmost_first (s : String) :
    (extractIPv6 s = none ↔ ∀ i, matchList ipv6RegEx (s.data.drop i) = []) ∧
    (∀ t : String, extractIPv6 s = some t →
      ∃ j, (∀ k, k < j → matchList ipv6RegEx (s.data.drop k) = []) ∧
        firstMatchAt ipv6RegEx (s.data.drop j) = some t.data) := by
  constructor
  · rw [extractIPv6, Option.map_eq_none']
    exact findFirstPos_eq_none_iff ipv6RegEx s.data
  · intro t ht
    rw [extractIPv6, Option.map_eq_some'] at ht
    obtain ⟨⟨j, m⟩, hfp, hmk⟩ := ht
    obtain ⟨hleft, hmatch⟩ := findFirstPos_leftmost ipv6RegEx s.data j m hfp
    refine ⟨j, hleft, ?_⟩
    rw [← hmk]
    exact hmatch

theorem extractIPv6_leftmost_first_witness :
    ((∀ i, matchList ipv6RegEx (("no address here" : String).data.drop i) = []) →
      extractIPv6 "no address here" = none) ∧
    (∃ j, (∀ k, k < j → matchList ipv6RegEx (("a ::1" : String).data.drop k) = []) ∧
      firstMatchAt ipv6RegEx (("a ::1" : String).data.drop j) =
        some ("::1" : String).data) :=
  ⟨fun h => (extractIPv6_leftmost_first "no address here").1.mpr h,
   (extractIPv6_leftmost_first "a ::1").2 "::1" (by decide)⟩

/-- C5 (confirmed).  If the text contains two or more IPv6-shaped
substrings (positions where `ipv6RegEx` matches), the extractor returns
the match at the left-most matching position — no earlier position
matches — and the update handler (with a correct token and successful
save) stores exactly that selected match. -/
theorem extractIPv6_selects_leftmost (s : String)
    (h : ∃ i j, i < j ∧ matchList ipv6RegEx (s.data.drop i) ≠ [] ∧
      matchList ipv6RegEx (s.data.drop j) ≠ []) :
    ∃ (p : Nat) (m : List Char),
      findFirstPos ipv6RegEx s.data = some (p, m) ∧
      (∀ k, k < p → matchList ipv6RegEx (s.data.drop k) = []) ∧
      firstMatchAt ipv6RegEx (s.data.drop p) = some m ∧
      extractIPv6 s = some (String.mk m) ∧
      (∀ tok addr0 : String,
        updateIPv6Address tok ("Bearer " ++ tok) s true addr0 =
          (200, String.mk m)) := by
  obtain ⟨i, _, _, hi, _⟩ := h
  have hsome := findFirstPos_isSome ipv6RegEx s.data i hi
  rw [Option.isSome_iff_exists] at hsome
  obtain ⟨⟨p, m⟩, hfp⟩ := hsome
  obtain ⟨hleft, hmatch⟩ := findFirstPos_leftmost ipv6RegEx s.data p m hfp
  have hext : extractIPv6 s = some (String.mk m) := by
    rw [extractIPv6, hfp, Option.map_some']
  refine ⟨p, m, hfp, hleft, hmatch, hext, fun tok addr0 => ?_⟩
  simp [updateIPv6Address, hext]

theorem extractIPv6_selects_leftmost_witness :
    ∃ (p : Nat) (m : List Char),
      findFirstPos ipv6RegEx ("a ::1 b ::2" : String).data = some (p, m) ∧
      (∀ k, k < p → matchList ipv6RegEx (("a ::1 b ::2" : String).data.drop k) = []) ∧
      firstMatchAt ipv6RegEx (("a ::1 b ::2" : String).data.drop p) = some m ∧
      extractIPv6 "a ::1 b ::2" = some (String.mk m) ∧
      (∀ tok addr0 : String,
        updateIPv6Address tok ("Bearer " ++ tok) "a ::1 b ::2" true addr0 =
          (200, String.mk m)) :=
  extractIPv6_selects_leftmost "a ::1 b ::2"
    ⟨2, 8, by omega, by decide, by decide⟩

/-- C7 (confirmed).  An update request with a correct token whose
body yields an extracted address, but whose `saveIPv6Address` fails,
gets HTTP 500 while the in-memory address remains the newly written
extracted value — no rollback. -/
theorem updateIPv6Address_save_failure (tok body addr0 a : String)
    (h : extractIPv6 body = some a) :
    updateIPv6Address tok ("Bearer " ++ tok) body false addr0 = (500, a) := by
  simp [updateIPv6Address, h]

theorem updateIPv6Address_save_failure_witness :
    updateIPv6Address "t" ("Bearer " ++ "t") "x ::1" false "old" = (500, "::1") :=
  updateIPv6Address_save_failure "t" "x ::1" "old" "::1" (by decide)

/-- C8 (confirmed).  Any request whose `Authorization` header is not
exactly `"Bearer "` followed by the configured secret (full-string
equality) gets HTTP 401 and leaves the stored address unchanged,
regardless of body content and of whether saving would succeed. -/
theorem updateIPv6Address_unauthorized (tok auth body addr0 : String)
    (saveOk : Bool) (h : auth ≠ "Bearer " ++ tok) :
    updateIPv6Address tok auth body saveOk addr0 = (401, addr0) := by
  simp [updateIPv6Address, h]

theorem updateIPv6Address_unauthorized_witness :
    updateIPv6Address "secret" "Bearer wrong" "::1" true "keep" = (401, "keep") :=
  updateIPv6Address_unauthorized "secret" "Bearer wrong" "::1" "keep" true
    (by decide)

theorem tunnelStatuses_eq_zipWith (probe : String → Bool) :
    ∀ (l4 l6 : List String), l4.length = l6.length →
      tunnelStatuses probe l4 l6 =
        some (List.zipWith (fun p4 p6 => TunnelStatus.mk p4 p6 (probe p6)) l4 l6) := by
  intro l4
  induction l4 with
  | nil =>
    intro l6 h
    cases l6 with
    | nil => rfl
    | cons p6 r6 => simp at h
  | cons p4 r4 ih =>
    intro l6 h
    cases l6 with
    | nil => simp at h
    | cons p6 r6 =>
      simp only [List.length_cons, Nat.add_right_cancel_iff] at h
      simp [tunnelStatuses, ih r6 h]

/-- C9 (confirmed).  With equally long port lists (enforced at
startup), the health check returns exactly one status per configured
mapping, in configuration order (the `i`-th status pairs `IPv4Ports[i]`
with `IPv6Ports[i]` and that mapping's probe result), with HTTP 200 when
every probe succeeds and HTTP 500 when at least one fails. -/
theorem healthCheckHandler_statuses (ipv4Ports ipv6Ports : List String)
    (probe : String → Bool) (h : ipv4Ports.length = ipv6Ports.length) :
    ∃ code sts,
      healthCheckHandler ipv4Ports ipv6Ports probe = some (code, sts) ∧
      sts = List.zipWith (fun p4 p6 => TunnelStatus.mk p4 p6 (probe p6))
              ipv4Ports ipv6Ports ∧
      sts.length = ipv4Ports.length ∧
      (code = 200 ↔ ∀ st ∈ sts, st.ipv6Alive = true) ∧
      (code = 500 ↔ ∃ st ∈ sts, st.ipv6Alive = false) := by
  have hlen : (List.zipWith (fun p4 p6 => TunnelStatus.mk p4 p6 (probe p6))
      ipv4Ports ipv6Ports).length = ipv4Ports.length := by
    rw [List.length_zipWith, h, Nat.min_self]
  cases hall : (List.zipWith (fun p4 p6 => TunnelStatus.mk p4 p6 (probe p6))
      ipv4Ports ipv6Ports).all (fun st => st.ipv6Alive) with
  | true =>
    have hforall := List.all_eq_true.mp hall
    refine ⟨200, _, ?_, rfl, hlen, ?_, ?_⟩
    · rw [healthCheckHandler, tunnelStatuses_eq_zipWith probe ipv4Ports ipv6Ports h,
        Option.map_some', hall, if_pos rfl]
    · exact ⟨fun _ st hst => by simpa using hforall st hst, fun _ => rfl⟩
    · constructor
      · intro habs; omega
      · rintro ⟨st, hst, hfalse⟩
        have := hforall st hst
        simp [hfalse] at this
  | false =>
    obtain ⟨st0, hst0, hfalse0⟩ := List.all_eq_false.mp hall
    refine ⟨500, _, ?_, rfl, hlen, ?_, ?_⟩
    · rw [healthCheckHandler, tunnelStatuses_eq_zipWith probe ipv4Ports ipv6Ports h,
        Option.map_some', hall]
      rfl
    · constructor
      · intro habs; omega
      · intro hforall
        exact absurd (hforall st0 hst0) (by simpa using hfalse0)
    · exact ⟨fun _ => ⟨st0, hst0, by simpa using hfalse0⟩, fun _ => rfl⟩

theorem healthCheckHandler_statuses_witness :
    ∃ code sts,
      healthCheckHandler ["8080", "7070"] ["80", "443"]
          (fun p => p == "80") = some (code, sts) ∧
      sts = List.zipWith (fun p4 p6 => TunnelStatus.mk p4 p6 (p6 == "80"))
              ["8080", "7070"] ["80", "443"] ∧
      sts.length = (["8080", "7070"] : List String).length ∧
      (code = 200 ↔ ∀ st ∈ sts, st.ipv6Alive = true) ∧
      (code = 500 ↔ ∃ st ∈ sts, st.ipv6Alive = false) :=
  healthCheckHandler_statuses ["8080", "7070"] ["80", "443"]
    (fun p => p == "80") (by decide)

/-! ### The relay (`forward`) -/

theorem fwdStep_inv (e : FwdEvent) (s : FwdState) (hinv : FwdInv s) :
    FwdInv (fwdStep e s) := by
  obtain ⟨pcFg, pcBg, sE, dE, sC, dC⟩ := s
  obtain ⟨h1, h2, h3, h4⟩ := hinv
  simp only [FwdInv] at h1 h2 h3 h4 ⊢
  cases e <;> simp only [fwdStep] <;>
    first
      | exact ⟨h1, h2, h3, h4⟩
      | (split_ifs <;> simp_all)

theorem fwdRun_inv (es : List FwdEvent) : FwdInv (fwdRun es) := by
  suffices h : ∀ s, FwdInv s → FwdInv (es.foldl (fun t e => fwdStep e t) s) by
    exact h fwdInit (by simp [FwdInv, fwdInit])
  induction es with
  | nil => intro s hs; exact hs
  | cons e rest ih => intro s hs; exact ih _ (fwdStep_inv e s hs)

/-- C2 (counterexample).  The claim says that as soon as *either*
copy direction completes, both streams are closed.  In this execution
the outbound peer sends EOF, the background copy `io.Copy(src, dst)`
completes (`pcBg = 1`), and the foreground goroutine is scheduled three
more times — yet neither stream is closed and the foreground copy is
still blocked reading `src` (`pcFg = 0`): the deferred closes run only
when the foreground copy returns. -/
theorem forward_bg_completion_closes_nothing :
    (fwdRun [.dstEOF, .stepBg, .stepFg, .stepFg, .stepFg]).pcBg = 1 ∧
    (fwdRun [.dstEOF, .stepBg, .stepFg, .stepFg, .stepFg]).srcClosed = false ∧
    (fwdRun [.dstEOF, .stepBg, .stepFg, .stepFg, .stepFg]).dstClosed = false ∧
    (fwdRun [.dstEOF, .stepBg, .stepFg, .stepFg, .stepFg]).pcFg = 0 := by
  decide

/-- C2 (amended).  Both streams are closed exactly when the
*foreground* direction (`io.Copy(dst, src)`, reading the inbound
connection) completes and `forward`'s deferred closes run: in every
execution, both streams are closed iff the foreground goroutine has run
its deferred closes to the end, and any closed stream implies the
foreground copy has returned.  Completion of the background direction
(`go io.Copy(src, dst)`) alone closes nothing. -/
theorem forward_closes_iff_fg_completes (es : List FwdEvent) :
    ((fwdRun es).srcClosed = true ∧ (fwdRun es).dstClosed = true ↔
      (fwdRun es).pcFg = 3) ∧
    ((fwdRun es).srcClosed = true ∨ (fwdRun es).dstClosed = true →
      2 ≤ (fwdRun es).pcFg) := by
  obtain ⟨h1, h2, h3, h4⟩ := fwdRun_inv es
  constructor
  · constructor
    · rintro ⟨hs, _⟩
      exact h1.mp hs
    · intro hpc
      exact ⟨h1.mpr hpc, h2.mpr (by omega)⟩
  · rintro (hs | hd)
    · have := h1.mp hs
      omega
    · exact h2.mp hd

theorem forward_closes_iff_fg_completes_witness :
    ((fwdRun [.srcEOF, .stepFg, .stepFg, .stepFg]).srcClosed = true ∧
     (fwdRun [.srcEOF, .stepFg, .stepFg, .stepFg]).dstClosed = true) ∧
    2 ≤ (fwdRun [.srcEOF, .stepFg, .stepFg, .stepFg]).pcFg :=
  ⟨(forward_closes_iff_fg_completes
      [.srcEOF, .stepFg, .stepFg, .stepFg]).1.mpr (by decide),
   (forward_closes_iff_fg_completes
      [.srcEOF, .stepFg, .stepFg, .stepFg]).2 (Or.inl (by decide))⟩

/-! ### The listener loop -/

theorem lstRun_no_dial_events (s : LstState) (es : List LstEvent)
    (hpc : s.pc = 2)
    (hnd : ∀ e ∈ es, e ≠ LstEvent.dialOk ∧ e ≠ LstEvent.dialFail) :
    (lstRun s es).accepted = s.accepted ∧ (lstRun s es).pc = 2 := by
  induction es generalizing s with
  | nil => exact ⟨rfl, hpc⟩
  | cons e rest ih =>
    have hstep : (lstStep e s).accepted = s.accepted ∧ (lstStep e s).pc = 2 := by
      obtain ⟨hno, hnf⟩ := hnd e (List.mem_cons_self e rest)
      cases e with
      | arrive => exact ⟨rfl, hpc⟩
      | step => simp [lstStep, hpc]
      | dialOk => exact absurd rfl hno
      | dialFail => exact absurd rfl hnf
      | relayDone =>
        simp only [lstStep]
        split <;> exact ⟨rfl, hpc⟩
    have hrest := ih (lstStep e s) hstep.2
      (fun e' he' => hnd e' (List.mem_cons_of_mem e he'))
    rw [lstRun] at hrest ⊢
    simp only [List.foldl_cons]
    rw [hrest.1, hrest.2, hstep.1]
    exact ⟨rfl, rfl⟩

/-- C6 (counterexample).  The claim says a stalled dial never delays
acceptance.  But `net.Dial` runs on the listener goroutine itself,
between `Accept` calls: here the first connection is accepted and its
dial is in flight (`pc = 2`); a second connection arrives and the
listener is scheduled three more times, yet it stays blocked in the dial
and the second connection remains unaccepted
(`accepted = 1`, `pending = 1`). -/
theorem listener_stalled_dial_delays_accept :
    (lstRun lstInit [.arrive, .step, .step, .arrive, .step, .step, .step]).accepted
      = 1 ∧
    (lstRun lstInit [.arrive, .step, .step, .arrive, .step, .step, .step]).pending
      = 1 ∧
    (lstRun lstInit [.arrive, .step, .step, .arrive, .step, .step, .step]).pc
      = 2 := by
  decide

/-- C6 (amended).  A slow or stalled *relay* never delays acceptance
(`forward` runs on its own goroutine: a connection can be accepted while
a previously spawned relay has not finished), but the *dial* runs
synchronously on the listener goroutine, so while a dial is in flight
(`pc = 2`) and until it completes, no subsequent connection is
accepted, no matter how often the listener is scheduled. -/
theorem listener_dial_on_listener_task :
    (∀ (s : LstState) (es : List LstEvent), s.pc = 2 →
      (∀ e ∈ es, e ≠ LstEvent.dialOk ∧ e ≠ LstEvent.dialFail) →
      (lstRun s es).accepted = s.accepted) ∧
    ((lstRun lstInit [.arrive, .step, .step, .dialOk, .step, .arrive, .step]).accepted
        = 2 ∧
     (lstRun lstInit [.arrive, .step, .step, .dialOk, .step, .arrive, .step]).relays
        = 1 ∧
     (lstRun lstInit [.arrive, .step, .step, .dialOk, .step, .arrive, .step]).relaysDone
        = 0) :=
  ⟨fun s es hpc hnd => (lstRun_no_dial_events s es hpc hnd).1, by decide⟩

theorem listener_dial_on_listener_task_witness :
    (lstRun ⟨2, 1, 1, 0, 0⟩ [.arrive, .step, .relayDone]).accepted = 1 :=
  listener_dial_on_listener_task.1 ⟨2, 1, 1, 0, 0⟩ [.arrive, .step, .relayDone]
    rfl (by decide)

/-! ### The health check holding the read lock across all probes -/

theorem hcStep_inv (n : Nat) (newAddr : String) (b : Bool) (s : HCState)
    (hinv : HCInv n s) : HCInv n (hcStep newAddr b s) := by
  obtain ⟨pcH, pcU, remaining, snap, mem, obs⟩ := s
  simp only [HCInv] at hinv ⊢
  obtain ⟨h0, hu3, h1, h2, h3, h4⟩ := hinv
  cases b with
  | true =>
    simp only [hcStep]
    split_ifs <;> dsimp only
    · exact ⟨h0, hu3, h1, h2, h3, h4⟩
    · -- RLock taken: pcH 0 → 1, snap := mem
      rename_i hp0 hlock
      simp only [Bool.or_eq_true, decide_eq_true_eq, not_or] at hlock
      refine ⟨h0, hu3, ?_, fun _ => ⟨rfl, by omega⟩, ?_, ?_⟩
      · first
        | exact fun h => h.elim
        | (intro h; exact absurd h (by omega))
      · intro _
        rw [(h1 hp0).1, (h1 hp0).2]
        simp
      · first
        | exact fun h => h.elim
        | (intro h; exact absurd h (by omega))
    · -- deferred RUnlock: pcH 1 → 2
      rename_i hnp0 hp1 hrem
      refine ⟨h0, hu3, ?_, ?_, fun _ => h3 (Or.inl hp1), fun _ => hrem⟩
      · first
        | exact fun h => h.elim
        | (intro h; exact absurd h (by omega))
      · first
        | exact fun h => h.elim
        | (intro h; exact absurd h (by omega))
    · -- probe: remaining > 0, records the current address
      rename_i hnp0 hp1 hrem
      refine ⟨by omega, hu3, ?_, fun _ => h2 hp1, ?_, ?_⟩
      · first
        | exact fun h => h.elim
        | (intro h; exact absurd h (by omega))
      · intro _
        rw [h3 (Or.inl hp1), (h2 hp1).1]
        have heq : n - (remaining - 1) = (n - remaining) + 1 := by omega
        rw [heq, List.replicate_succ']
      · first
        | exact fun h => h.elim
        | (intro h; exact absurd h (by omega))
    · exact ⟨h0, hu3, h1, h2, h3, h4⟩
  | false =>
    simp only [hcStep]
    split_ifs <;> dsimp only
    · exact ⟨h0, hu3, h1, h2, h3, h4⟩
    · -- mu.Lock taken: pcU 0 → 1 (only when pcH ≠ 1)
      rename_i hu0 hph
      exact ⟨h0, by omega, h1, by omega, fun hh => h3 hh, h4⟩
    · -- store: pcU 1 → 2, mem := newAddr (pcH ≠ 1: the write lock is held)
      rename_i hnu0 hu1
      have hph1 : pcH ≠ 1 := fun hh => by
        rcases (h2 hh).2 with h | h <;> omega
      exact ⟨h0, by omega, h1, fun hh => absurd hh hph1, fun hh => h3 hh, h4⟩
    · -- mu.Unlock: pcU 2 → 3
      rename_i hnu0 hnu1 hu2
      exact ⟨h0, by omega, h1, fun hh => ⟨(h2 hh).1, by omega⟩,
        fun hh => h3 hh, h4⟩
    · exact ⟨h0, hu3, h1, h2, h3, h4⟩

theorem hcRun_inv (n : Nat) (mem0 newAddr : String) (sch : List Bool) :
    HCInv n (hcRun newAddr (hcInit n mem0) sch) := by
  suffices h : ∀ s, HCInv n s →
      HCInv n (sch.foldl (fun t b => hcStep newAddr b t) s) by
    exact h (hcInit n mem0) (by simp [HCInv, hcInit])
  induction sch with
  | nil => intro s hs; exact hs
  | cons b rest ih => intro s hs; exact ih _ (hcStep_inv n newAddr b s hs)

/-- C10 (confirmed).  The health-check handler takes `mu.RLock()`
once for the whole probe loop: in every interleaving with a concurrent
update, once the handler finishes (`pcH = 2`) each of the `n` probes has
dialled the same destination-address snapshot (the value read when the
lock was taken), and while the probe loop runs (`pcH = 1`) the update
goroutine is outside its write critical section (`pcU = 0` or `3`),
i.e. blocked until all probes have finished. -/
theorem healthCheck_same_snapshot (n : Nat) (mem0 newAddr : String)
    (sch : List Bool) :
    ((hcRun newAddr (hcInit n mem0) sch).pcH = 2 →
      (hcRun newAddr (hcInit n mem0) sch).obs =
        List.replicate n (hcRun newAddr (hcInit n mem0) sch).snap) ∧
    ((hcRun newAddr (hcInit n mem0) sch).pcH = 1 →
      (hcRun newAddr (hcInit n mem0) sch).pcU = 0 ∨
      (hcRun newAddr (hcInit n mem0) sch).pcU = 3) := by
  obtain ⟨h0, hu3, h1, h2, h3, h4⟩ := hcRun_inv n mem0 newAddr sch
  constructor
  · intro hp2
    have := h3 (Or.inr hp2)
    rw [this, h4 hp2, Nat.sub_zero]
  · intro hp1
    exact (h2 hp1).2

theorem healthCheck_same_snapshot_witness :
    (hcRun "y" (hcInit 2 "x") [true, true, true, true]).pcH = 2 ∧
    (hcRun "y" (hcInit 2 "x") [true, true, true, true]).obs =
      List.replicate 2 (hcRun "y" (hcInit 2 "x") [true, true, true, true]).snap :=
  ⟨by decide,
   (healthCheck_same_snapshot 2 "x" "y" [true, true, true, true]).1 (by decide)⟩

end FourTwoSix
